import Mathlib

/-!
Verification of the inventory-allocation engine of the barcode-scanning app
(`streamlit_app.py`): code normalization, manifest loading with its consistency
audits, the allocate / undo / reset operations on the per-line counters, and
the invariants tying the counters to the scan log.

Definitions mirror the Python source: `norm_code`, `elegir_slot_para_codigo`,
`registrar_codigo`, the undo handler (`deshacer`), the reset handler
(`reiniciar`) and the reload block (`recargar`).  Machine integers of the
source (pandas int64 counters) are modelled as unbounded `Int`: every mutation
is a single ±1 step, so overflow is immaterial to the stated properties.
-/

namespace ScanCode

/-! ### Character-level facts used by the normalizer -/

theorem char_toNat_ofNat (n : Nat) (h : n < 0xd800) : (Char.ofNat n).toNat = n := by
  unfold Char.ofNat
  rw [dif_pos (Or.inl h)]
  rfl

theorem uint32_le_iff (a b : UInt32) : (a ≤ b) ↔ a.toNat ≤ b.toNat := by
  simp [UInt32.le_def, BitVec.le_def, UInt32.toNat]

theorem isLower_iff (c : Char) : c.isLower = true ↔ 97 ≤ c.toNat ∧ c.toNat ≤ 122 := by
  simp only [Char.isLower, Bool.and_eq_true, decide_eq_true_eq, uint32_le_iff]
  exact Iff.rfl

theorem isUpper_iff (c : Char) : c.isUpper = true ↔ 65 ≤ c.toNat ∧ c.toNat ≤ 90 := by
  simp only [Char.isUpper, Bool.and_eq_true, decide_eq_true_eq, uint32_le_iff]
  exact Iff.rfl

theorem isDigit_iff (c : Char) : c.isDigit = true ↔ 48 ≤ c.toNat ∧ c.toNat ≤ 57 := by
  simp only [Char.isDigit, Bool.and_eq_true, decide_eq_true_eq, uint32_le_iff]
  exact Iff.rfl

theorem isAlphanum_iff (c : Char) :
    c.isAlphanum = true ↔
      (48 ≤ c.toNat ∧ c.toNat ≤ 57) ∨ (65 ≤ c.toNat ∧ c.toNat ≤ 90) ∨
        (97 ≤ c.toNat ∧ c.toNat ≤ 122) := by
  simp only [Char.isAlphanum, Char.isAlpha, Bool.or_eq_true, isUpper_iff, isLower_iff,
    isDigit_iff]
  tauto

theorem toUpper_of_lower (c : Char) (h : 97 ≤ c.toNat ∧ c.toNat ≤ 122) :
    Char.toUpper c = Char.ofNat (c.toNat - 32) := by
  unfold Char.toUpper
  rw [if_pos h]

theorem toUpper_of_not_lower (c : Char) (h : ¬(97 ≤ c.toNat ∧ c.toNat ≤ 122)) :
    Char.toUpper c = c := by
  unfold Char.toUpper
  rw [if_neg h]

theorem toNat_toUpper_of_lower (c : Char) (h : 97 ≤ c.toNat ∧ c.toNat ≤ 122) :
    (Char.toUpper c).toNat = c.toNat - 32 := by
  rw [toUpper_of_lower c h, char_toNat_ofNat]
  omega

theorem toUpper_toUpper (c : Char) : Char.toUpper (Char.toUpper c) = Char.toUpper c := by
  by_cases h : 97 ≤ c.toNat ∧ c.toNat ≤ 122
  · apply toUpper_of_not_lower
    rw [toNat_toUpper_of_lower c h]
    omega
  · rw [toUpper_of_not_lower c h, toUpper_of_not_lower c h]

theorem isAlphanum_toUpper (c : Char) (h : c.isAlphanum = true) :
    (Char.toUpper c).isAlphanum = true := by
  rw [isAlphanum_iff] at h ⊢
  by_cases hl : 97 ≤ c.toNat ∧ c.toNat ≤ 122
  · rw [toNat_toUpper_of_lower c hl]
    omega
  · rw [toUpper_of_not_lower c hl]
    exact h

/-! ### Code Normalizer

`norm_code` in the source: `re.sub(r"[^0-9A-Za-z]", "", str(x)).upper()` —
drop every character that is not an ASCII letter or digit, then upper-case
what is left. -/

def norm_code (x : String) : String :=
  String.mk ((x.data.filter Char.isAlphanum).map Char.toUpper)

theorem norm_code_data (x : String) :
    (norm_code x).data = (x.data.filter Char.isAlphanum).map Char.toUpper := rfl

theorem mem_norm_code (x : String) (c : Char) (h : c ∈ (norm_code x).data) :
    c.isAlphanum = true ∧ Char.toUpper c = c := by
  rw [norm_code_data] at h
  rcases List.mem_map.mp h with ⟨b, hb, rfl⟩
  have hba : b.isAlphanum = true := (List.mem_filter.mp hb).2
  refine ⟨isAlphanum_toUpper b hba, toUpper_toUpper b⟩

theorem norm_code_idem (x : String) : norm_code (norm_code x) = norm_code x := by
  unfold norm_code
  apply congrArg
  have h1 : ((norm_code x).data.filter Char.isAlphanum) = (norm_code x).data := by
    apply List.filter_eq_self.mpr
    intro c hc
    exact (mem_norm_code x c hc).1
  show ((String.mk ((x.data.filter Char.isAlphanum).map Char.toUpper)).data.filter
      Char.isAlphanum).map Char.toUpper = _
  have h2 : (String.mk ((x.data.filter Char.isAlphanum).map Char.toUpper)).data
      = (norm_code x).data := rfl
  rw [h2, h1, norm_code_data, List.map_map]
  apply List.map_congr_left
  intro c hc
  show Char.toUpper (Char.toUpper c) = Char.toUpper c
  exact toUpper_toUpper c

/-! ### Data model

`Linea` is one row of the session DataFrame after the reload block: the
loaded columns `isbn`, `nombre`, `total`, `peru`, `chile`, `colombia`,
`isbn_norm`, plus the tracking columns added by `assign`:
`sc_pe/sc_cl/sc_co/sc_total` (scanned) and `rem_pe/rem_cl/rem_co`
(remaining). -/

@[ext] structure Linea where
  isbn : String
  nombre : String
  total : Int
  peru : Int
  chile : Int
  colombia : Int
  isbn_norm : String
  sc_pe : Int
  sc_cl : Int
  sc_co : Int
  sc_total : Int
  rem_pe : Int
  rem_cl : Int
  rem_co : Int
deriving Repr, DecidableEq

def lineaNula : Linea :=
  { isbn := "", nombre := "", total := 0, peru := 0, chile := 0, colombia := 0,
    isbn_norm := "", sc_pe := 0, sc_cl := 0, sc_co := 0, sc_total := 0,
    rem_pe := 0, rem_cl := 0, rem_co := 0 }

/-- One element of `st.session_state.scan_log`: `{ts, code, match, destino, idx}`. -/
@[ext] structure Entrada where
  ts : String
  code : String
  matched : Bool
  destino : String
  idx : Nat
deriving Repr, DecidableEq

/-- One element of `st.session_state.no_match`: `{ts, code}`. -/
@[ext] structure NoDetectado where
  ts : String
  code : String
deriving Repr, DecidableEq

/-- One manifest row as delivered by the loader before the reload block adds
the tracking columns. -/
@[ext] structure Fila where
  isbn : String
  nombre : String
  total : Int
  peru : Int
  chile : Int
  colombia : Int
deriving Repr, DecidableEq

/-- The session state: DataFrame rows, scan log, not-found log, destination
priority and the two load-time audit snapshots. -/
@[ext] structure Sesion where
  df : List Linea
  scan_log : List Entrada
  no_match : List NoDetectado
  prioridad : List String
  duplicados : List Linea
  incongruencias : List Linea
deriving Repr, DecidableEq

/-! ### Manifest load (the `need_reload` block) -/

/-- Build one DataFrame row from a manifest row: derive `isbn_norm`, zero the
scanned counters, initialize each `rem_*` from the country quota. -/
def mkLinea (f : Fila) : Linea :=
  { isbn := f.isbn, nombre := f.nombre, total := f.total,
    peru := f.peru, chile := f.chile, colombia := f.colombia,
    isbn_norm := norm_code f.isbn,
    sc_pe := 0, sc_cl := 0, sc_co := 0, sc_total := 0,
    rem_pe := f.peru, rem_cl := f.chile, rem_co := f.colombia }

/-- `df[df["isbn_norm"].duplicated(keep=False)]`: every row whose normalized
identifier occurs more than once in the column. -/
def duplicadosDe (lineas : List Linea) : List Linea :=
  lineas.filter fun l =>
    decide (2 ≤ lineas.countP fun m => decide (m.isbn_norm = l.isbn_norm))

/-- `df.loc[suma_paises != df["total"]]`: every row whose country quotas do
not sum to its total. -/
def incongruenciasDe (lineas : List Linea) : List Linea :=
  lineas.filter fun l => decide (¬(l.peru + l.chile + l.colombia = l.total))

/-- The `need_reload` block: rebuild `df` from the uploaded rows and replace
both audit snapshots; the scan log and the not-found log are not touched. -/
def recargar (ss : Sesion) (filas : List Fila) : Sesion :=
  let lineas := filas.map mkLinea
  { ss with df := lineas,
            duplicados := duplicadosDe lineas,
            incongruencias := incongruenciasDe lineas }

/-- The state installed by `ensure_session` (empty logs) with a given
destination priority, before any file is applied. -/
def sesionInicial (prioridad : List String) : Sesion :=
  { df := [], scan_log := [], no_match := [], prioridad := prioridad,
    duplicados := [], incongruencias := [] }

/-- First application of a manifest to a fresh session. -/
def cargar (filas : List Fila) (prioridad : List String) : Sesion :=
  recargar (sesionInicial prioridad) filas

/-! ### Allocation engine -/

/-- `df.index[df["isbn_norm"] == code].tolist()`: the row positions whose
normalized identifier equals the scanned code, in row order. -/
def indicesDe (df : List Linea) (code : String) : List Nat :=
  (List.range df.length).filter fun i => decide ((df.getD i lineaNula).isbn_norm = code)

/-- The body of the inner loop of `elegir_slot_para_codigo`: the three
guarded returns for one country and one row position. -/
def prueba_slot (df : List Linea) (pais : String) (i : Nat) : Option (Nat × String) :=
  if pais = "Perú" ∧ 0 < (df.getD i lineaNula).rem_pe then some (i, "Perú")
  else if pais = "Chile" ∧ 0 < (df.getD i lineaNula).rem_cl then some (i, "Chile")
  else if pais = "Colombia" ∧ 0 < (df.getD i lineaNula).rem_co then some (i, "Colombia")
  else none

/-- `elegir_slot_para_codigo(indices)`: iterate the priority countries in
order and, inside each, the matching row positions in order; return the first
pair whose remaining counter is positive. -/
def elegir_slot_para_codigo (prioridad : List String) (df : List Linea)
    (indices : List Nat) : Option (Nat × String) :=
  prioridad.findSome? fun pais => indices.findSome? fun i => prueba_slot df pais i

/-- The counter update of `registrar_codigo` on the selected row: increment
the chosen country's scanned counter, decrement its remaining counter, then
increment `sc_total`. -/
def tocar (destino : String) (l : Linea) : Linea :=
  let l1 :=
    if destino = "Perú" then { l with sc_pe := l.sc_pe + 1, rem_pe := l.rem_pe - 1 }
    else if destino = "Chile" then { l with sc_cl := l.sc_cl + 1, rem_cl := l.rem_cl - 1 }
    else { l with sc_co := l.sc_co + 1, rem_co := l.rem_co - 1 }
  { l1 with sc_total := l1.sc_total + 1 }

/-- The four ways `registrar_codigo` can return, in source order: empty
normalized code, no matching row, all slots exhausted (`COMPLETO`), or a
committed allocation. -/
inductive Resultado where
  | vacio : Resultado
  | noDetectado : Resultado
  | completo (idx : Nat) : Resultado
  | asignado (idx : Nat) (destino : String) : Resultado
deriving Repr, DecidableEq

/-- `registrar_codigo(raw_code)`: normalize, bail out on empty, log a
not-found, log a `COMPLETO` entry, or commit the selected slot and log it. -/
def registrar_codigo (ts : String) (raw_code : String) (ss : Sesion) :
    Sesion × Resultado :=
  let code := norm_code raw_code
  if code = "" then (ss, Resultado.vacio)
  else
    let ix_all := indicesDe ss.df code
    if ix_all = [] then
      ({ ss with no_match := ss.no_match ++ [{ ts := ts, code := code }] },
       Resultado.noDetectado)
    else
      match elegir_slot_para_codigo ss.prioridad ss.df ix_all with
      | none =>
          ({ ss with scan_log := ss.scan_log ++
              [{ ts := ts, code := code, matched := true, destino := "COMPLETO",
                 idx := ix_all.headD 0 }] },
           Resultado.completo (ix_all.headD 0))
      | some (idx, destino) =>
          ({ ss with
              df := ss.df.set idx (tocar destino (ss.df.getD idx lineaNula)),
              scan_log := ss.scan_log ++
                [{ ts := ts, code := code, matched := true, destino := destino,
                   idx := idx }] },
           Resultado.asignado idx destino)

/-! ### Reversal controller, reset, priority update -/

/-- The counter update of the undo handler for a popped matched entry with a
real destination: `sc_total -= 1`, then decrement the recorded country's
scanned counter and increment its remaining counter. -/
def destocar (destino : String) (l : Linea) : Linea :=
  let l1 := { l with sc_total := l.sc_total - 1 }
  if destino = "Perú" then { l1 with sc_pe := l1.sc_pe - 1, rem_pe := l1.rem_pe + 1 }
  else if destino = "Chile" then { l1 with sc_cl := l1.sc_cl - 1, rem_cl := l1.rem_cl + 1 }
  else if destino = "Colombia" then { l1 with sc_co := l1.sc_co - 1, rem_co := l1.rem_co + 1 }
  else l1

/-- The undo button handler: pop the last scan-log entry if any; when it is a
matched entry with a real destination, reverse its counter mutation on the
referenced row. -/
def deshacer (ss : Sesion) : Sesion :=
  match ss.scan_log.getLast? with
  | none => ss
  | some last =>
    if last.matched = true ∧
        (last.destino = "Perú" ∨ last.destino = "Chile" ∨ last.destino = "Colombia") then
      { ss with
          df := ss.df.set last.idx (destocar last.destino (ss.df.getD last.idx lineaNula)),
          scan_log := ss.scan_log.dropLast }
    else
      { ss with scan_log := ss.scan_log.dropLast }

/-- The per-row effect of the reset button: zero the scanned counters and
restore each remaining counter from the country quota. -/
def reiniciarLinea (l : Linea) : Linea :=
  { l with sc_pe := 0, sc_cl := 0, sc_co := 0, sc_total := 0,
           rem_pe := l.peru, rem_cl := l.chile, rem_co := l.colombia }

/-- The reset button handler: reset every row and clear both logs. -/
def reiniciar (ss : Sesion) : Sesion :=
  { ss with df := ss.df.map reiniciarLinea, scan_log := [], no_match := [] }

/-- The priority multiselect handler: replace the priority wholesale, except
that an empty selection keeps the previous one. -/
def cambiar_prioridad (p : List String) (ss : Sesion) : Sesion :=
  if p = [] then ss else { ss with prioridad := p }

/-! ### Reachable sessions

A session obtained by applying a manifest once (with nonnegative quotas, as
loaded from a well-formed spreadsheet) and then any sequence of scan, undo,
reset and priority-update operations. -/

inductive Alcanzable : Sesion → Prop where
  | carga (filas : List Fila) (prioridad : List String)
      (h : ∀ f ∈ filas, 0 ≤ f.peru ∧ 0 ≤ f.chile ∧ 0 ≤ f.colombia) :
      Alcanzable (cargar filas prioridad)
  | escanear (ts raw : String) (ss : Sesion) (h : Alcanzable ss) :
      Alcanzable (registrar_codigo ts raw ss).1
  | retroceder (ss : Sesion) (h : Alcanzable ss) : Alcanzable (deshacer ss)
  | reinicio (ss : Sesion) (h : Alcanzable ss) : Alcanzable (reiniciar ss)
  | reordenar (p : List String) (ss : Sesion) (h : Alcanzable ss) :
      Alcanzable (cambiar_prioridad p ss)

/-! ### List helpers -/

theorem getD_set_self {α : Type} (l : List α) (i : Nat) (a d : α) (h : i < l.length) :
    (l.set i a).getD i d = a := by
  induction l generalizing i with
  | nil => simp at h
  | cons x xs ih =>
    cases i with
    | zero => simp [List.set]
    | succ n => simpa [List.set] using ih n (by simpa using h)

theorem getD_set_ne {α : Type} (l : List α) (i j : Nat) (a d : α) (h : i ≠ j) :
    (l.set i a).getD j d = l.getD j d := by
  induction l generalizing i j with
  | nil => simp [List.set]
  | cons x xs ih =>
    cases i with
    | zero =>
      cases j with
      | zero => exact absurd rfl h
      | succ m => simp [List.set]
    | succ n =>
      cases j with
      | zero => simp [List.set]
      | succ m => simpa [List.set] using ih n m (fun hnm => h (by rw [hnm]))

theorem set_getD_self {α : Type} (l : List α) (i : Nat) (d : α) (h : i < l.length) :
    l.set i (l.getD i d) = l := by
  induction l generalizing i with
  | nil => simp at h
  | cons x xs ih =>
    cases i with
    | zero => simp [List.set]
    | succ n =>
      simp only [List.getD_cons_succ, List.set]
      rw [ih n (by simpa using h)]

theorem getD_map_linea (f : Linea → Linea) (l : List Linea) (i : Nat) (h : i < l.length) :
    (l.map f).getD i lineaNula = f (l.getD i lineaNula) := by
  induction l generalizing i with
  | nil => simp at h
  | cons x xs ih =>
    cases i with
    | zero => simp
    | succ n => simpa using ih n (by simpa using h)

/-! ### Characterizing the selection algorithm -/

theorem mem_indicesDe (df : List Linea) (code : String) (i : Nat) :
    i ∈ indicesDe df code ↔ i < df.length ∧ (df.getD i lineaNula).isbn_norm = code := by
  simp [indicesDe, List.mem_filter, List.mem_range]

/-- The condition under which `elegir_slot_para_codigo` accepts the pair
`(i, pais)`: the row's remaining counter for that country is positive. -/
def buenPar (df : List Linea) (i : Nat) (pais : String) : Prop :=
  (pais = "Perú" ∧ 0 < (df.getD i lineaNula).rem_pe) ∨
  (pais = "Chile" ∧ 0 < (df.getD i lineaNula).rem_cl) ∨
  (pais = "Colombia" ∧ 0 < (df.getD i lineaNula).rem_co)

instance (df : List Linea) (i : Nat) (pais : String) : Decidable (buenPar df i pais) := by
  unfold buenPar
  infer_instance

theorem prueba_slot_eq_some (df : List Linea) (pais : String) (i : Nat) (r : Nat × String)
    (h : prueba_slot df pais i = some r) : r = (i, pais) ∧ buenPar df i pais := by
  unfold prueba_slot at h
  unfold buenPar
  by_cases h1 : pais = "Perú" ∧ 0 < (df.getD i lineaNula).rem_pe
  · rw [if_pos h1] at h
    cases h
    exact ⟨by rw [h1.1], Or.inl h1⟩
  · rw [if_neg h1] at h
    by_cases h2 : pais = "Chile" ∧ 0 < (df.getD i lineaNula).rem_cl
    · rw [if_pos h2] at h
      cases h
      exact ⟨by rw [h2.1], Or.inr (Or.inl h2)⟩
    · rw [if_neg h2] at h
      by_cases h3 : pais = "Colombia" ∧ 0 < (df.getD i lineaNula).rem_co
      · rw [if_pos h3] at h
        cases h
        exact ⟨by rw [h3.1], Or.inr (Or.inr h3)⟩
      · rw [if_neg h3] at h
        simp at h

theorem prueba_slot_eq_none (df : List Linea) (pais : String) (i : Nat)
    (h : prueba_slot df pais i = none) : ¬buenPar df i pais := by
  unfold prueba_slot at h
  unfold buenPar
  by_cases h1 : pais = "Perú" ∧ 0 < (df.getD i lineaNula).rem_pe
  · rw [if_pos h1] at h
    simp at h
  · rw [if_neg h1] at h
    by_cases h2 : pais = "Chile" ∧ 0 < (df.getD i lineaNula).rem_cl
    · rw [if_pos h2] at h
      simp at h
    · rw [if_neg h2] at h
      by_cases h3 : pais = "Colombia" ∧ 0 < (df.getD i lineaNula).rem_co
      · rw [if_pos h3] at h
        simp at h
      · tauto

theorem prueba_slot_of_buenPar (df : List Linea) (pais : String) (i : Nat)
    (h : buenPar df i pais) : prueba_slot df pais i = some (i, pais) := by
  rcases h with ⟨hp, hr⟩ | ⟨hp, hr⟩ | ⟨hp, hr⟩ <;> subst hp <;> unfold prueba_slot
  · rw [if_pos ⟨rfl, hr⟩]
  · rw [if_neg (by simp), if_pos ⟨rfl, hr⟩]
  · rw [if_neg (by simp), if_neg (by simp), if_pos ⟨rfl, hr⟩]

theorem elegir_eq_some (p : List String) (df : List Linea) (ind : List Nat)
    (i : Nat) (d : String)
    (h : elegir_slot_para_codigo p df ind = some (i, d)) :
    i ∈ ind ∧ d ∈ p ∧ buenPar df i d := by
  unfold elegir_slot_para_codigo at h
  obtain ⟨pais, hpais, hin⟩ := List.exists_of_findSome?_eq_some h
  obtain ⟨j, hj, hpr⟩ := List.exists_of_findSome?_eq_some hin
  obtain ⟨heq, hb⟩ := prueba_slot_eq_some df pais j _ hpr
  obtain ⟨h1, h2⟩ := (Prod.mk.injEq i d j pais).mp heq
  subst h1
  subst h2
  exact ⟨hj, hpais, hb⟩

theorem prueba_slot_none_of_not (df : List Linea) (pais : String) (i : Nat)
    (h : ¬buenPar df i pais) : prueba_slot df pais i = none := by
  cases hpj : prueba_slot df pais i with
  | none => rfl
  | some r => exact absurd (prueba_slot_eq_some df pais i r hpj).2 h

theorem elegir_eq_none_iff (p : List String) (df : List Linea) (ind : List Nat) :
    elegir_slot_para_codigo p df ind = none ↔
      ∀ pais ∈ p, ∀ i ∈ ind, ¬buenPar df i pais := by
  unfold elegir_slot_para_codigo
  rw [List.findSome?_eq_none_iff]
  constructor
  · intro h pais hpais i hi
    exact prueba_slot_eq_none df pais i
      (List.findSome?_eq_none_iff.mp (h pais hpais) i hi)
  · intro h pais hpais
    exact List.findSome?_eq_none_iff.mpr
      (fun i hi => prueba_slot_none_of_not df pais i (h pais hpais i hi))

/-! ### The four outcomes of `registrar_codigo`, as equations -/

theorem registrar_vacio (ts raw : String) (ss : Sesion) (h : norm_code raw = "") :
    registrar_codigo ts raw ss = (ss, Resultado.vacio) := by
  simp only [registrar_codigo]
  rw [if_pos h]

theorem registrar_noDetectado (ts raw : String) (ss : Sesion) (h : ¬norm_code raw = "")
    (h2 : indicesDe ss.df (norm_code raw) = []) :
    registrar_codigo ts raw ss =
      ({ ss with no_match := ss.no_match ++ [{ ts := ts, code := norm_code raw }] },
       Resultado.noDetectado) := by
  simp only [registrar_codigo]
  rw [if_neg h, if_pos h2]

theorem registrar_completo (ts raw : String) (ss : Sesion) (h : ¬norm_code raw = "")
    (h2 : ¬indicesDe ss.df (norm_code raw) = [])
    (h3 : elegir_slot_para_codigo ss.prioridad ss.df (indicesDe ss.df (norm_code raw)) = none) :
    registrar_codigo ts raw ss =
      ({ ss with scan_log := ss.scan_log ++
          [{ ts := ts, code := norm_code raw, matched := true, destino := "COMPLETO",
             idx := (indicesDe ss.df (norm_code raw)).headD 0 }] },
       Resultado.completo ((indicesDe ss.df (norm_code raw)).headD 0)) := by
  simp only [registrar_codigo]
  rw [if_neg h, if_neg h2, h3]

theorem registrar_asignado (ts raw : String) (ss : Sesion) (i : Nat) (d : String)
    (h : ¬norm_code raw = "")
    (h3 : elegir_slot_para_codigo ss.prioridad ss.df (indicesDe ss.df (norm_code raw)) =
      some (i, d)) :
    registrar_codigo ts raw ss =
      ({ ss with df := ss.df.set i (tocar d (ss.df.getD i lineaNula)),
                 scan_log := ss.scan_log ++
                   [{ ts := ts, code := norm_code raw, matched := true, destino := d,
                      idx := i }] },
       Resultado.asignado i d) := by
  have h2 : ¬indicesDe ss.df (norm_code raw) = [] := by
    intro hnil
    rw [hnil] at h3
    obtain ⟨hi, _⟩ := elegir_eq_some _ _ _ _ _ h3
    simp at hi
  simp only [registrar_codigo]
  rw [if_neg h, if_neg h2, h3]

/-! ### The log-counter invariant

`cuenta log d i` is the number of committed allocations to destination `d`
on row `i` still present in the scan log.  `BuenEstado` says every row's
scanned counters equal these counts, `sc_total` is their sum, each `rem_*`
is quota minus scanned, and each scanned counter lies between 0 and the
quota; it also records that every log entry is matched and references an
existing row. -/

def cuenta (log : List Entrada) (destino : String) (i : Nat) : Nat :=
  log.countP fun e => decide (e.destino = destino ∧ e.idx = i)

theorem cuenta_nil (destino : String) (i : Nat) : cuenta [] destino i = 0 := rfl

theorem cuenta_append (log : List Entrada) (e : Entrada) (destino : String) (i : Nat) :
    cuenta (log ++ [e]) destino i =
      cuenta log destino i + if e.destino = destino ∧ e.idx = i then 1 else 0 := by
  unfold cuenta
  rw [List.countP_append]
  congr 1
  by_cases h : e.destino = destino ∧ e.idx = i
  · simp [List.countP_cons, h]
  · simp [List.countP_cons, h]

def LineaCoherente (log : List Entrada) (i : Nat) (l : Linea) : Prop :=
  l.sc_pe = (cuenta log "Perú" i : Int) ∧
  l.sc_cl = (cuenta log "Chile" i : Int) ∧
  l.sc_co = (cuenta log "Colombia" i : Int) ∧
  l.sc_total = l.sc_pe + l.sc_cl + l.sc_co ∧
  l.rem_pe = l.peru - l.sc_pe ∧
  l.rem_cl = l.chile - l.sc_cl ∧
  l.rem_co = l.colombia - l.sc_co ∧
  0 ≤ l.peru ∧ 0 ≤ l.chile ∧ 0 ≤ l.colombia ∧
  l.sc_pe ≤ l.peru ∧ l.sc_cl ≤ l.chile ∧ l.sc_co ≤ l.colombia

def BuenEstado (ss : Sesion) : Prop :=
  (∀ e ∈ ss.scan_log, e.matched = true ∧ e.idx < ss.df.length) ∧
  (∀ i, i < ss.df.length → LineaCoherente ss.scan_log i (ss.df.getD i lineaNula))

theorem getD_mem_of_lt {α : Type} (l : List α) (i : Nat) (d : α) (h : i < l.length) :
    l.getD i d ∈ l := by
  induction l generalizing i with
  | nil => simp at h
  | cons x xs ih =>
    cases i with
    | zero => simp
    | succ n => exact List.mem_cons_of_mem x (ih n (by simpa using h))

theorem getD_map_of_lt {α β : Type} (f : α → β) (l : List α) (i : Nat) (da : α) (db : β)
    (h : i < l.length) : (l.map f).getD i db = f (l.getD i da) := by
  induction l generalizing i with
  | nil => simp at h
  | cons x xs ih =>
    cases i with
    | zero => simp
    | succ n => simpa using ih n (by simpa using h)

def filaNula : Fila :=
  { isbn := "", nombre := "", total := 0, peru := 0, chile := 0, colombia := 0 }

theorem buenEstado_cargar (filas : List Fila) (prioridad : List String)
    (h : ∀ f ∈ filas, 0 ≤ f.peru ∧ 0 ≤ f.chile ∧ 0 ≤ f.colombia) :
    BuenEstado (cargar filas prioridad) := by
  constructor
  · intro e he
    simp [cargar, recargar, sesionInicial] at he
  · intro i hi
    have hlen : i < filas.length := by
      simpa [cargar, recargar, sesionInicial] using hi
    have hget : (cargar filas prioridad).df.getD i lineaNula
        = mkLinea (filas.getD i filaNula) := by
      simp only [cargar, recargar, sesionInicial]
      exact getD_map_of_lt mkLinea filas i filaNula lineaNula hlen
    have hmem := getD_mem_of_lt filas i filaNula hlen
    obtain ⟨hp, hc, hco⟩ := h _ hmem
    rw [List.getD_eq_getElem?_getD] at hp hc hco
    have hlog : (cargar filas prioridad).scan_log = [] := rfl
    rw [hget, hlog]
    simp [LineaCoherente, mkLinea, cuenta_nil, hp, hc, hco]

theorem headD_mem {α : Type} (l : List α) (d : α) (h : ¬l = []) : l.headD d ∈ l := by
  cases l with
  | nil => exact absurd rfl h
  | cons x xs => simp

theorem buenPar_cases (df : List Linea) (i : Nat) (d : String) (h : buenPar df i d) :
    d = "Perú" ∨ d = "Chile" ∨ d = "Colombia" := by
  rcases h with ⟨hd, _⟩ | ⟨hd, _⟩ | ⟨hd, _⟩
  · exact Or.inl hd
  · exact Or.inr (Or.inl hd)
  · exact Or.inr (Or.inr hd)

/-! ### How one appended or popped log entry moves the counts -/

theorem lineaCoherente_append_other (log : List Entrada) (e : Entrada) (i : Nat) (l : Linea)
    (hne : ¬e.idx = i) (h : LineaCoherente log i l) : LineaCoherente (log ++ [e]) i l := by
  unfold LineaCoherente at h ⊢
  rw [cuenta_append, cuenta_append, cuenta_append,
    if_neg (fun hh => hne hh.2), if_neg (fun hh => hne hh.2), if_neg (fun hh => hne hh.2)]
  simpa using h

theorem lineaCoherente_append_no_pais (log : List Entrada) (e : Entrada) (i : Nat) (l : Linea)
    (h1 : ¬e.destino = "Perú") (h2 : ¬e.destino = "Chile") (h3 : ¬e.destino = "Colombia")
    (h : LineaCoherente log i l) : LineaCoherente (log ++ [e]) i l := by
  unfold LineaCoherente at h ⊢
  rw [cuenta_append, cuenta_append, cuenta_append,
    if_neg (fun hh => h1 hh.1), if_neg (fun hh => h2 hh.1), if_neg (fun hh => h3 hh.1)]
  simpa using h

theorem lineaCoherente_tocar_pe (log : List Entrada) (e : Entrada) (i : Nat) (l : Linea)
    (hd : e.destino = "Perú") (hidx : e.idx = i) (hrem : 0 < l.rem_pe)
    (h : LineaCoherente log i l) : LineaCoherente (log ++ [e]) i (tocar "Perú" l) := by
  unfold LineaCoherente at h ⊢
  obtain ⟨c1, c2, c3, c4, c5, c6, c7, c8, c9, c10, c11, c12, c13⟩ := h
  rw [cuenta_append, cuenta_append, cuenta_append,
    if_pos ⟨hd, hidx⟩,
    if_neg (fun hh => by rw [hd] at hh; exact absurd hh.1 (by decide)),
    if_neg (fun hh => by rw [hd] at hh; exact absurd hh.1 (by decide))]
  simp only [tocar, if_pos rfl]
  push_cast
  refine ⟨by omega, by simpa using c2, by simpa using c3, by omega, by omega,
    by simpa using c6, by simpa using c7, c8, c9, c10, by omega, c12, c13⟩

theorem lineaCoherente_tocar_cl (log : List Entrada) (e : Entrada) (i : Nat) (l : Linea)
    (hd : e.destino = "Chile") (hidx : e.idx = i) (hrem : 0 < l.rem_cl)
    (h : LineaCoherente log i l) : LineaCoherente (log ++ [e]) i (tocar "Chile" l) := by
  unfold LineaCoherente at h ⊢
  obtain ⟨c1, c2, c3, c4, c5, c6, c7, c8, c9, c10, c11, c12, c13⟩ := h
  rw [cuenta_append, cuenta_append, cuenta_append,
    if_neg (fun hh => by rw [hd] at hh; exact absurd hh.1 (by decide)),
    if_pos ⟨hd, hidx⟩,
    if_neg (fun hh => by rw [hd] at hh; exact absurd hh.1 (by decide))]
  simp only [tocar, if_neg (by decide : ¬("Chile" : String) = "Perú"), if_pos rfl]
  push_cast
  refine ⟨by simpa using c1, by omega, by simpa using c3, by omega, by simpa using c5,
    by omega, by simpa using c7, c8, c9, c10, c11, by omega, c13⟩

theorem lineaCoherente_tocar_co (log : List Entrada) (e : Entrada) (i : Nat) (l : Linea)
    (hd : e.destino = "Colombia") (hidx : e.idx = i) (hrem : 0 < l.rem_co)
    (h : LineaCoherente log i l) : LineaCoherente (log ++ [e]) i (tocar "Colombia" l) := by
  unfold LineaCoherente at h ⊢
  obtain ⟨c1, c2, c3, c4, c5, c6, c7, c8, c9, c10, c11, c12, c13⟩ := h
  rw [cuenta_append, cuenta_append, cuenta_append,
    if_neg (fun hh => by rw [hd] at hh; exact absurd hh.1 (by decide)),
    if_neg (fun hh => by rw [hd] at hh; exact absurd hh.1 (by decide)),
    if_pos ⟨hd, hidx⟩]
  simp only [tocar, if_neg (by decide : ¬("Colombia" : String) = "Perú"),
    if_neg (by decide : ¬("Colombia" : String) = "Chile")]
  push_cast
  refine ⟨by simpa using c1, by simpa using c2, by omega, by omega, by simpa using c5,
    by simpa using c6, by omega, c8, c9, c10, c11, c12, by omega⟩

/-! ### Preservation of the invariant by each operation -/

theorem buenEstado_registrar (ts raw : String) (ss : Sesion) (h : BuenEstado ss) :
    BuenEstado (registrar_codigo ts raw ss).1 := by
  obtain ⟨hlog, hlin⟩ := h
  by_cases hc : norm_code raw = ""
  · rw [registrar_vacio ts raw ss hc]
    exact ⟨hlog, hlin⟩
  · by_cases hix : indicesDe ss.df (norm_code raw) = []
    · rw [registrar_noDetectado ts raw ss hc hix]
      exact ⟨hlog, hlin⟩
    · cases helegir : elegir_slot_para_codigo ss.prioridad ss.df
        (indicesDe ss.df (norm_code raw)) with
      | none =>
        rw [registrar_completo ts raw ss hc hix helegir]
        have hhead : (indicesDe ss.df (norm_code raw)).headD 0 <
            ss.df.length :=
          ((mem_indicesDe ss.df (norm_code raw) _).mp
            (headD_mem _ 0 hix)).1
        constructor
        · intro e he
          rcases List.mem_append.mp he with h1 | h2
          · exact hlog e h1
          · have he2 : e = ⟨ts, norm_code raw, true, "COMPLETO", (indicesDe ss.df (norm_code raw)).headD 0⟩ := by
              simpa using h2
            subst he2
            exact ⟨rfl, hhead⟩
        · intro i hi
          exact lineaCoherente_append_no_pais _ _ i _ (by simp) (by simp) (by simp)
            (hlin i hi)
      | some r =>
        obtain ⟨i0, d0⟩ := r
        rw [registrar_asignado ts raw ss i0 d0 hc helegir]
        obtain ⟨hmem, _, hbuen⟩ := elegir_eq_some _ _ _ _ _ helegir
        have hi0 : i0 < ss.df.length := ((mem_indicesDe _ _ _).mp hmem).1
        constructor
        · intro e he
          rcases List.mem_append.mp he with h1 | h2
          · obtain ⟨hm, hl⟩ := hlog e h1
            exact ⟨hm, by simpa [List.length_set] using hl⟩
          · have he2 : e = ⟨ts, norm_code raw, true, d0, i0⟩ := by simpa using h2
            subst he2
            exact ⟨rfl, by simpa [List.length_set] using hi0⟩
        · intro i hi
          rw [List.length_set] at hi
          by_cases hii : i = i0
          · subst hii
            rw [getD_set_self ss.df i (tocar d0 (ss.df.getD i lineaNula)) lineaNula hi0]
            rcases hbuen with ⟨hd, hrem⟩ | ⟨hd, hrem⟩ | ⟨hd, hrem⟩ <;> subst hd
            · exact lineaCoherente_tocar_pe _ _ i _ rfl rfl hrem (hlin i hi)
            · exact lineaCoherente_tocar_cl _ _ i _ rfl rfl hrem (hlin i hi)
            · exact lineaCoherente_tocar_co _ _ i _ rfl rfl hrem (hlin i hi)
          · rw [getD_set_ne ss.df i0 i _ lineaNula (fun hh => hii hh.symm)]
            exact lineaCoherente_append_other _ _ i _ (fun hh => hii hh.symm) (hlin i hi)

theorem destocar_pe_eq (l : Linea) :
    destocar "Perú" l = ⟨l.isbn, l.nombre, l.total, l.peru, l.chile, l.colombia, l.isbn_norm,
      l.sc_pe - 1, l.sc_cl, l.sc_co, l.sc_total - 1, l.rem_pe + 1, l.rem_cl, l.rem_co⟩ := rfl

theorem destocar_cl_eq (l : Linea) :
    destocar "Chile" l = ⟨l.isbn, l.nombre, l.total, l.peru, l.chile, l.colombia, l.isbn_norm,
      l.sc_pe, l.sc_cl - 1, l.sc_co, l.sc_total - 1, l.rem_pe, l.rem_cl + 1, l.rem_co⟩ := rfl

theorem destocar_co_eq (l : Linea) :
    destocar "Colombia" l = ⟨l.isbn, l.nombre, l.total, l.peru, l.chile, l.colombia,
      l.isbn_norm, l.sc_pe, l.sc_cl, l.sc_co - 1, l.sc_total - 1, l.rem_pe, l.rem_cl,
      l.rem_co + 1⟩ := rfl

/-! ### Shape equations for the undo handler -/

theorem deshacer_nil (ss : Sesion) (h : ss.scan_log.getLast? = none) : deshacer ss = ss := by
  unfold deshacer
  rw [h]

theorem deshacer_pais (ss : Sesion) (e : Entrada) (h : ss.scan_log.getLast? = some e)
    (hcond : e.matched = true ∧
      (e.destino = "Perú" ∨ e.destino = "Chile" ∨ e.destino = "Colombia")) :
    deshacer ss =
      { ss with
          df := ss.df.set e.idx (destocar e.destino (ss.df.getD e.idx lineaNula)),
          scan_log := ss.scan_log.dropLast } := by
  unfold deshacer
  rw [h]
  exact if_pos hcond

theorem deshacer_sin_pais (ss : Sesion) (e : Entrada) (h : ss.scan_log.getLast? = some e)
    (hcond : ¬(e.matched = true ∧
      (e.destino = "Perú" ∨ e.destino = "Chile" ∨ e.destino = "Colombia"))) :
    deshacer ss = { ss with scan_log := ss.scan_log.dropLast } := by
  unfold deshacer
  rw [h]
  exact if_neg hcond

/-! ### How popping the last entry moves the counts -/

theorem lineaCoherente_dropLast_other (resto : List Entrada) (e : Entrada) (i : Nat)
    (l : Linea) (hne : ¬e.idx = i) (h : LineaCoherente (resto ++ [e]) i l) :
    LineaCoherente resto i l := by
  unfold LineaCoherente at h ⊢
  rw [cuenta_append, cuenta_append, cuenta_append,
    if_neg (fun hh => hne hh.2), if_neg (fun hh => hne hh.2), if_neg (fun hh => hne hh.2)]
    at h
  simpa using h

theorem lineaCoherente_dropLast_no_pais (resto : List Entrada) (e : Entrada) (i : Nat)
    (l : Linea) (h1 : ¬e.destino = "Perú") (h2 : ¬e.destino = "Chile")
    (h3 : ¬e.destino = "Colombia") (h : LineaCoherente (resto ++ [e]) i l) :
    LineaCoherente resto i l := by
  unfold LineaCoherente at h ⊢
  rw [cuenta_append, cuenta_append, cuenta_append,
    if_neg (fun hh => h1 hh.1), if_neg (fun hh => h2 hh.1), if_neg (fun hh => h3 hh.1)] at h
  simpa using h

theorem lineaCoherente_destocar_pe (resto : List Entrada) (e : Entrada) (i : Nat) (l : Linea)
    (hd : e.destino = "Perú") (hidx : e.idx = i)
    (h : LineaCoherente (resto ++ [e]) i l) : LineaCoherente resto i (destocar "Perú" l) := by
  unfold LineaCoherente at h ⊢
  obtain ⟨c1, c2, c3, c4, c5, c6, c7, c8, c9, c10, c11, c12, c13⟩ := h
  rw [cuenta_append, if_pos ⟨hd, hidx⟩] at c1
  rw [cuenta_append, if_neg (fun hh => by rw [hd] at hh; exact absurd hh.1 (by decide))] at c2
  rw [cuenta_append, if_neg (fun hh => by rw [hd] at hh; exact absurd hh.1 (by decide))] at c3
  simp only [destocar_pe_eq]
  push_cast at c1 c2 c3
  refine ⟨by omega, by simpa using c2, by simpa using c3, by omega, by omega,
    by simpa using c6, by simpa using c7, c8, c9, c10, by omega, c12, c13⟩

theorem lineaCoherente_destocar_cl (resto : List Entrada) (e : Entrada) (i : Nat) (l : Linea)
    (hd : e.destino = "Chile") (hidx : e.idx = i)
    (h : LineaCoherente (resto ++ [e]) i l) : LineaCoherente resto i (destocar "Chile" l) := by
  unfold LineaCoherente at h ⊢
  obtain ⟨c1, c2, c3, c4, c5, c6, c7, c8, c9, c10, c11, c12, c13⟩ := h
  rw [cuenta_append, if_neg (fun hh => by rw [hd] at hh; exact absurd hh.1 (by decide))] at c1
  rw [cuenta_append, if_pos ⟨hd, hidx⟩] at c2
  rw [cuenta_append, if_neg (fun hh => by rw [hd] at hh; exact absurd hh.1 (by decide))] at c3
  simp only [destocar_cl_eq]
  push_cast at c1 c2 c3
  refine ⟨by simpa using c1, by omega, by simpa using c3, by omega, by simpa using c5,
    by omega, by simpa using c7, c8, c9, c10, c11, by omega, c13⟩

theorem lineaCoherente_destocar_co (resto : List Entrada) (e : Entrada) (i : Nat) (l : Linea)
    (hd : e.destino = "Colombia") (hidx : e.idx = i)
    (h : LineaCoherente (resto ++ [e]) i l) :
    LineaCoherente resto i (destocar "Colombia" l) := by
  unfold LineaCoherente at h ⊢
  obtain ⟨c1, c2, c3, c4, c5, c6, c7, c8, c9, c10, c11, c12, c13⟩ := h
  rw [cuenta_append, if_neg (fun hh => by rw [hd] at hh; exact absurd hh.1 (by decide))] at c1
  rw [cuenta_append, if_neg (fun hh => by rw [hd] at hh; exact absurd hh.1 (by decide))] at c2
  rw [cuenta_append, if_pos ⟨hd, hidx⟩] at c3
  simp only [destocar_co_eq]
  push_cast at c1 c2 c3
  refine ⟨by simpa using c1, by simpa using c2, by omega, by omega, by simpa using c5,
    by simpa using c6, by omega, c8, c9, c10, c11, c12, by omega⟩

theorem buenEstado_deshacer (ss : Sesion) (h : BuenEstado ss) : BuenEstado (deshacer ss) := by
  obtain ⟨hlog, hlin⟩ := h
  cases hlast : ss.scan_log.getLast? with
  | none => rw [deshacer_nil ss hlast]; exact ⟨hlog, hlin⟩
  | some e =>
    obtain ⟨resto, hre⟩ := List.getLast?_eq_some_iff.1 hlast
    have hdrop : ss.scan_log.dropLast = resto := by rw [hre]; exact List.dropLast_concat
    obtain ⟨hml, hil⟩ := hlog e (List.mem_of_getLast?_eq_some hlast)
    by_cases hcond : e.matched = true ∧
        (e.destino = "Perú" ∨ e.destino = "Chile" ∨ e.destino = "Colombia")
    · rw [deshacer_pais ss e hlast hcond]
      constructor
      · intro e' he'
        simp only [hdrop] at he'
        have hmem : e' ∈ ss.scan_log := by
          rw [hre]
          exact List.mem_append_left _ he'
        obtain ⟨hm', hl'⟩ := hlog e' hmem
        exact ⟨hm', by simpa [List.length_set] using hl'⟩
      · intro i hi
        rw [List.length_set] at hi
        simp only [hdrop]
        have hLC : LineaCoherente (resto ++ [e]) i (ss.df.getD i lineaNula) := by
          rw [← hre]
          exact hlin i hi
        by_cases hii : i = e.idx
        · subst hii
          rw [getD_set_self ss.df e.idx _ lineaNula hil]
          rcases hcond.2 with hd | hd | hd <;> rw [hd]
          · exact lineaCoherente_destocar_pe resto e e.idx _ hd rfl hLC
          · exact lineaCoherente_destocar_cl resto e e.idx _ hd rfl hLC
          · exact lineaCoherente_destocar_co resto e e.idx _ hd rfl hLC
        · rw [getD_set_ne ss.df e.idx i _ lineaNula (fun hh => hii hh.symm)]
          exact lineaCoherente_dropLast_other resto e i _ (fun hh => hii hh.symm) hLC
    · rw [deshacer_sin_pais ss e hlast hcond]
      constructor
      · intro e' he'
        simp only [hdrop] at he'
        have hmem : e' ∈ ss.scan_log := by
          rw [hre]
          exact List.mem_append_left _ he'
        exact hlog e' hmem
      · intro i hi
        simp only [hdrop]
        have hLC : LineaCoherente (resto ++ [e]) i (ss.df.getD i lineaNula) := by
          rw [← hre]
          exact hlin i hi
        have hnd : ¬e.destino = "Perú" ∧ ¬e.destino = "Chile" ∧ ¬e.destino = "Colombia" := by
          by_contra hcontra
          push_neg at hcontra
          apply hcond
          refine ⟨hml, ?_⟩
          by_cases d1 : e.destino = "Perú"
          · exact Or.inl d1
          · by_cases d2 : e.destino = "Chile"
            · exact Or.inr (Or.inl d2)
            · exact Or.inr (Or.inr (hcontra d1 d2))
        exact lineaCoherente_dropLast_no_pais resto e i _ hnd.1 hnd.2.1 hnd.2.2 hLC

/-! ### Reset, priority change -/

theorem buenEstado_reiniciar (ss : Sesion) (h : BuenEstado ss) : BuenEstado (reiniciar ss) := by
  obtain ⟨hlog, hlin⟩ := h
  constructor
  · intro e he
    simp [reiniciar] at he
  · intro i hi
    have hlen : i < ss.df.length := by simpa [reiniciar] using hi
    have hget : (reiniciar ss).df.getD i lineaNula
        = reiniciarLinea (ss.df.getD i lineaNula) := by
      simp only [reiniciar]
      exact getD_map_of_lt reiniciarLinea ss.df i lineaNula lineaNula hlen
    rw [hget]
    obtain ⟨_, _, _, _, _, _, _, c8, c9, c10, _, _, _⟩ := hlin i hlen
    show LineaCoherente [] i (reiniciarLinea (ss.df.getD i lineaNula))
    unfold LineaCoherente reiniciarLinea
    refine ⟨by simp [cuenta_nil], by simp [cuenta_nil], by simp [cuenta_nil], by simp,
      by simp, by simp, by simp, c8, c9, c10, by simpa using c8, by simpa using c9,
      by simpa using c10⟩

theorem buenEstado_cambiar_prioridad (p : List String) (ss : Sesion) (h : BuenEstado ss) :
    BuenEstado (cambiar_prioridad p ss) := by
  obtain ⟨hlog, hlin⟩ := h
  unfold cambiar_prioridad
  by_cases hp : p = []
  · rw [if_pos hp]; exact ⟨hlog, hlin⟩
  · rw [if_neg hp]; exact ⟨hlog, hlin⟩

/-- Every reachable session satisfies the counter invariant. -/
theorem buenEstado_alcanzable (ss : Sesion) (h : Alcanzable ss) : BuenEstado ss := by
  induction h with
  | carga filas prioridad hq => exact buenEstado_cargar filas prioridad hq
  | escanear ts raw ss _ ih => exact buenEstado_registrar ts raw ss ih
  | retroceder ss _ ih => exact buenEstado_deshacer ss ih
  | reinicio ss _ ih => exact buenEstado_reiniciar ss ih
  | reordenar p ss _ ih => exact buenEstado_cambiar_prioridad p ss ih

/-! ### Undo is the exact inverse of a committed allocation -/

theorem tocar_pe_eq (l : Linea) :
    tocar "Perú" l = ⟨l.isbn, l.nombre, l.total, l.peru, l.chile, l.colombia, l.isbn_norm,
      l.sc_pe + 1, l.sc_cl, l.sc_co, l.sc_total + 1, l.rem_pe - 1, l.rem_cl, l.rem_co⟩ := rfl

theorem tocar_cl_eq (l : Linea) :
    tocar "Chile" l = ⟨l.isbn, l.nombre, l.total, l.peru, l.chile, l.colombia, l.isbn_norm,
      l.sc_pe, l.sc_cl + 1, l.sc_co, l.sc_total + 1, l.rem_pe, l.rem_cl - 1, l.rem_co⟩ := rfl

theorem tocar_co_eq (l : Linea) :
    tocar "Colombia" l = ⟨l.isbn, l.nombre, l.total, l.peru, l.chile, l.colombia, l.isbn_norm,
      l.sc_pe, l.sc_cl, l.sc_co + 1, l.sc_total + 1, l.rem_pe, l.rem_cl, l.rem_co - 1⟩ := rfl

theorem destocar_tocar (d : String) (l : Linea)
    (hd : d = "Perú" ∨ d = "Chile" ∨ d = "Colombia") : destocar d (tocar d l) = l := by
  rcases hd with rfl | rfl | rfl
  · rw [tocar_pe_eq, destocar_pe_eq]
    ext <;> simp
  · rw [tocar_cl_eq, destocar_cl_eq]
    ext <;> simp
  · rw [tocar_co_eq, destocar_co_eq]
    ext <;> simp

theorem deshacer_registrar (ts raw : String) (ss : Sesion) (i : Nat) (d : String)
    (h1 : ¬norm_code raw = "")
    (h2 : elegir_slot_para_codigo ss.prioridad ss.df (indicesDe ss.df (norm_code raw)) =
      some (i, d)) :
    deshacer (registrar_codigo ts raw ss).1 = ss := by
  obtain ⟨hmem, _, hbuen⟩ := elegir_eq_some _ _ _ _ _ h2
  have hi : i < ss.df.length := ((mem_indicesDe _ _ _).mp hmem).1
  have hd3 := buenPar_cases _ _ _ hbuen
  rw [registrar_asignado ts raw ss i d h1 h2]
  have hlast : (ss.scan_log ++
      [({ ts := ts, code := norm_code raw, matched := true, destino := d, idx := i } :
        Entrada)]).getLast? =
      some { ts := ts, code := norm_code raw, matched := true, destino := d, idx := i } :=
    List.getLast?_concat _
  rw [deshacer_pais _ _ hlast ⟨rfl, hd3⟩]
  have hX : (ss.df.set i (tocar d (ss.df.getD i lineaNula))).set i
      (destocar d ((ss.df.set i (tocar d (ss.df.getD i lineaNula))).getD i lineaNula)) =
      ss.df := by
    rw [getD_set_self _ _ _ _ hi, destocar_tocar d _ hd3, List.set_set,
      set_getD_self _ _ _ hi]
  have hY : (ss.scan_log ++
      [({ ts := ts, code := norm_code raw, matched := true, destino := d, idx := i } :
        Entrada)]).dropLast = ss.scan_log := List.dropLast_concat
  show { ss with
      df := (ss.df.set i (tocar d (ss.df.getD i lineaNula))).set i
        (destocar d ((ss.df.set i (tocar d (ss.df.getD i lineaNula))).getD i lineaNula)),
      scan_log := (ss.scan_log ++
        [({ ts := ts, code := norm_code raw, matched := true, destino := d, idx := i } :
          Entrada)]).dropLast } = ss
  rw [hX, hY]

/-! ### The flattened candidate order of the selection loops (for C2) -/

/-- The candidate (row, country) pairs in the order the nested loops of
`elegir_slot_para_codigo` visit them: priority-major, row-index-minor. -/
def paresPrioridad (prioridad : List String) (indices : List Nat) : List (Nat × String) :=
  prioridad.flatMap fun pais => indices.map fun i => (i, pais)

theorem findSome?_prueba_eq_find? (df : List Linea) (pais : String) (ind : List Nat) :
    (ind.findSome? fun i => prueba_slot df pais i)
      = (ind.map fun i => (i, pais)).find? fun q => decide (buenPar df q.1 q.2) := by
  induction ind with
  | nil => rfl
  | cons j js ih =>
    rw [List.findSome?_cons, List.map_cons]
    cases hpj : prueba_slot df pais j with
    | some r =>
      obtain ⟨heq, hb⟩ := prueba_slot_eq_some df pais j r hpj
      subst heq
      rw [List.find?_cons_of_pos _ (by simpa using hb)]
    | none =>
      have hnb := prueba_slot_eq_none df pais j hpj
      rw [List.find?_cons_of_neg _ (by simpa using hnb)]
      exact ih

theorem elegir_eq_find (p : List String) (df : List Linea) (ind : List Nat) :
    elegir_slot_para_codigo p df ind
      = (paresPrioridad p ind).find? fun q => decide (buenPar df q.1 q.2) := by
  unfold elegir_slot_para_codigo paresPrioridad
  induction p with
  | nil => rfl
  | cons pais resto ih =>
    rw [List.findSome?_cons, List.flatMap_cons, List.find?_append,
      findSome?_prueba_eq_find? df pais ind]
    cases h : (ind.map fun i => (i, pais)).find? fun q => decide (buenPar df q.1 q.2) with
    | some r => simp
    | none => simpa using ih

/-! ### Demo sessions used by the witnesses -/

def prioDemo : List String := ["Perú", "Chile", "Colombia"]

def filaDemo : Fila :=
  { isbn := "A", nombre := "a", total := 1, peru := 1, chile := 0, colombia := 0 }

def ssDup : Sesion := cargar [filaDemo, filaDemo] prioDemo

def ssDup1 : Sesion := (registrar_codigo "t1" "A" ssDup).1

/-! ### The claims -/

/-- C1: for every manifest line and every destination, at every point of any
sequence of allocate, undo and reset operations after a load with nonnegative
quotas, the scanned counter lies between 0 and the quota and the remaining
counter equals quota minus scanned. -/
theorem C1_invariante_contadores (ss : Sesion) (h : Alcanzable ss) (i : Nat)
    (hi : i < ss.df.length) :
    (0 ≤ (ss.df.getD i lineaNula).sc_pe ∧
      (ss.df.getD i lineaNula).sc_pe ≤ (ss.df.getD i lineaNula).peru ∧
      (ss.df.getD i lineaNula).rem_pe
        = (ss.df.getD i lineaNula).peru - (ss.df.getD i lineaNula).sc_pe) ∧
    (0 ≤ (ss.df.getD i lineaNula).sc_cl ∧
      (ss.df.getD i lineaNula).sc_cl ≤ (ss.df.getD i lineaNula).chile ∧
      (ss.df.getD i lineaNula).rem_cl
        = (ss.df.getD i lineaNula).chile - (ss.df.getD i lineaNula).sc_cl) ∧
    (0 ≤ (ss.df.getD i lineaNula).sc_co ∧
      (ss.df.getD i lineaNula).sc_co ≤ (ss.df.getD i lineaNula).colombia ∧
      (ss.df.getD i lineaNula).rem_co
        = (ss.df.getD i lineaNula).colombia - (ss.df.getD i lineaNula).sc_co) := by
  obtain ⟨_, hlin⟩ := buenEstado_alcanzable ss h
  obtain ⟨c1, c2, c3, _, c5, c6, c7, _, _, _, c11, c12, c13⟩ := hlin i hi
  refine ⟨⟨?_, c11, c5⟩, ⟨?_, c12, c6⟩, ⟨?_, c13, c7⟩⟩
  · rw [c1]; exact Int.natCast_nonneg _
  · rw [c2]; exact Int.natCast_nonneg _
  · rw [c3]; exact Int.natCast_nonneg _

/-- C1 witness: the invariant evaluated on a session reached by loading a
two-row manifest and scanning its code once. -/
theorem C1_invariante_contadores_witness :
    (0 ≤ (ssDup1.df.getD 0 lineaNula).sc_pe ∧
      (ssDup1.df.getD 0 lineaNula).sc_pe ≤ (ssDup1.df.getD 0 lineaNula).peru ∧
      (ssDup1.df.getD 0 lineaNula).rem_pe
        = (ssDup1.df.getD 0 lineaNula).peru - (ssDup1.df.getD 0 lineaNula).sc_pe) ∧
    (0 ≤ (ssDup1.df.getD 0 lineaNula).sc_cl ∧
      (ssDup1.df.getD 0 lineaNula).sc_cl ≤ (ssDup1.df.getD 0 lineaNula).chile ∧
      (ssDup1.df.getD 0 lineaNula).rem_cl
        = (ssDup1.df.getD 0 lineaNula).chile - (ssDup1.df.getD 0 lineaNula).sc_cl) ∧
    (0 ≤ (ssDup1.df.getD 0 lineaNula).sc_co ∧
      (ssDup1.df.getD 0 lineaNula).sc_co ≤ (ssDup1.df.getD 0 lineaNula).colombia ∧
      (ssDup1.df.getD 0 lineaNula).rem_co
        = (ssDup1.df.getD 0 lineaNula).colombia - (ssDup1.df.getD 0 lineaNula).sc_co) :=
  C1_invariante_contadores ssDup1
    (Alcanzable.escanear "t1" "A" ssDup
      (Alcanzable.carga [filaDemo, filaDemo] prioDemo (by decide)))
    0 (by decide)

/-- C2: the selection is the two-level ordered search — it equals the first
satisfying pair of the flattened priority-major candidate list; a returned
pair lies in the searched sets and has positive remaining; and the returned
pair is exactly what `registrar_codigo` commits and logs. -/
theorem C2_seleccion_ordenada :
    (∀ prioridad df indices,
      elegir_slot_para_codigo prioridad df indices
        = (paresPrioridad prioridad indices).find? fun q => decide (buenPar df q.1 q.2)) ∧
    (∀ prioridad df indices i d,
      elegir_slot_para_codigo prioridad df indices = some (i, d) →
      i ∈ indices ∧ d ∈ prioridad ∧ buenPar df i d) ∧
    (∀ ts raw ss i d, ¬norm_code raw = "" →
      elegir_slot_para_codigo ss.prioridad ss.df (indicesDe ss.df (norm_code raw)) =
        some (i, d) →
      (registrar_codigo ts raw ss).2 = Resultado.asignado i d ∧
      (registrar_codigo ts raw ss).1.df = ss.df.set i (tocar d (ss.df.getD i lineaNula)) ∧
      (registrar_codigo ts raw ss).1.scan_log = ss.scan_log ++
        [{ ts := ts, code := norm_code raw, matched := true, destino := d, idx := i }]) := by
  refine ⟨elegir_eq_find, fun p df ind i d h => elegir_eq_some p df ind i d h, ?_⟩
  intro ts raw ss i d h1 h2
  rw [registrar_asignado ts raw ss i d h1 h2]
  exact ⟨rfl, rfl, rfl⟩

/-- C2 witness: two rows share the identifier "A" with quota Perú=1 each;
scanning "A" twice commits row 0 then row 1, leaving one scan on each. -/
theorem C2_seleccion_ordenada_witness :
    (registrar_codigo "t1" "A" ssDup).2 = Resultado.asignado 0 "Perú" ∧
    (registrar_codigo "t2" "A" ssDup1).2 = Resultado.asignado 1 "Perú" ∧
    ((registrar_codigo "t2" "A" ssDup1).1.df.getD 0 lineaNula).sc_pe = 1 ∧
    ((registrar_codigo "t2" "A" ssDup1).1.df.getD 1 lineaNula).sc_pe = 1 :=
  ⟨(C2_seleccion_ordenada.2.2 "t1" "A" ssDup 0 "Perú" (by decide) (by decide)).1,
   (C2_seleccion_ordenada.2.2 "t2" "A" ssDup1 1 "Perú" (by decide) (by decide)).1,
   by decide, by decide⟩

/-- C3: undo is a strict inverse of the immediately preceding committed
allocation — on any session, if the scan commits a slot, undoing right after
returns the entire session state (all counters and the log) to its
pre-allocate value. -/
theorem C3_deshacer_inverso (ts raw : String) (ss : Sesion) (i : Nat) (d : String)
    (h1 : ¬norm_code raw = "")
    (h2 : elegir_slot_para_codigo ss.prioridad ss.df (indicesDe ss.df (norm_code raw)) =
      some (i, d)) :
    deshacer (registrar_codigo ts raw ss).1 = ss :=
  deshacer_registrar ts raw ss i d h1 h2

/-- C3 witness: allocate then undo on the concrete duplicate-rows session. -/
theorem C3_deshacer_inverso_witness :
    deshacer (registrar_codigo "t1" "A" ssDup).1 = ssDup :=
  C3_deshacer_inverso "t1" "A" ssDup 0 "Perú" (by decide) (by decide)

def ssDup2 : Sesion := (registrar_codigo "t2" "A" ssDup1).1

def ssX : Sesion := cargar [filaDemo] ["Chile"]

/-- C4 counterexample: with DestinationPriority = ["Chile"], scanning "A"
yields the Complete outcome and appends the COMPLETO entry even though
destination Perú still has remaining 1 > 0 on the matching row — so Complete
is not equivalent to "every destination's remaining ≤ 0 on all matching
rows". -/
theorem C4_completo_contraejemplo :
    (registrar_codigo "t" "A" ssX).2 = Resultado.completo 0 ∧
    (registrar_codigo "t" "A" ssX).1.scan_log =
      [{ ts := "t", code := "A", matched := true, destino := "COMPLETO", idx := 0 }] ∧
    ¬((ssX.df.getD 0 lineaNula).rem_pe ≤ 0) := by decide

/-- C4 (amended): the scan returns the Complete outcome exactly when at least
one row matches the normalized code but every destination OF THE CURRENT
DestinationPriority sequence has remaining ≤ 0 on every matching row; in that
case it appends one matched COMPLETO entry referencing the first matching row
and changes nothing else (in particular no counters). -/
theorem C4_completo_amended (ts raw : String) (ss : Sesion) (h1 : ¬norm_code raw = "") :
    ((registrar_codigo ts raw ss).2 =
        Resultado.completo ((indicesDe ss.df (norm_code raw)).headD 0) ↔
      (¬indicesDe ss.df (norm_code raw) = [] ∧
        ∀ pais ∈ ss.prioridad, ∀ i ∈ indicesDe ss.df (norm_code raw),
          ¬buenPar ss.df i pais)) ∧
    ((¬indicesDe ss.df (norm_code raw) = [] ∧
        ∀ pais ∈ ss.prioridad, ∀ i ∈ indicesDe ss.df (norm_code raw),
          ¬buenPar ss.df i pais) →
      registrar_codigo ts raw ss =
        ({ ss with scan_log := ss.scan_log ++
            [{ ts := ts, code := norm_code raw, matched := true, destino := "COMPLETO",
               idx := (indicesDe ss.df (norm_code raw)).headD 0 }] },
         Resultado.completo ((indicesDe ss.df (norm_code raw)).headD 0))) := by
  constructor
  · constructor
    · intro hres
      by_cases hix : indicesDe ss.df (norm_code raw) = []
      · rw [registrar_noDetectado ts raw ss h1 hix] at hres
        simp at hres
      · refine ⟨hix, ?_⟩
        cases helegir : elegir_slot_para_codigo ss.prioridad ss.df
            (indicesDe ss.df (norm_code raw)) with
        | none => exact (elegir_eq_none_iff _ _ _).mp helegir
        | some r =>
          obtain ⟨i, d⟩ := r
          rw [registrar_asignado ts raw ss i d h1 helegir] at hres
          simp at hres
    · intro hh
      rw [registrar_completo ts raw ss h1 hh.1 ((elegir_eq_none_iff _ _ _).mpr hh.2)]
  · intro hh
    exact registrar_completo ts raw ss h1 hh.1 ((elegir_eq_none_iff _ _ _).mpr hh.2)

/-- C4 witness: the single row with quota Perú=1 scanned twice is exhausted;
a third scan of "A" takes the Complete branch of the amended statement. -/
theorem C4_completo_amended_witness :
    registrar_codigo "t3" "A" ssDup2 =
      ({ ssDup2 with scan_log := ssDup2.scan_log ++
          [{ ts := "t3", code := norm_code "A", matched := true, destino := "COMPLETO",
             idx := (indicesDe ssDup2.df (norm_code "A")).headD 0 }] },
       Resultado.completo ((indicesDe ssDup2.df (norm_code "A")).headD 0)) :=
  (C4_completo_amended "t3" "A" ssDup2 (by decide)).2 (by decide)

/-- C5: when the normalized code is nonempty and matches no row, the scan
appends exactly one entry {ts, code} to the not-found log and changes
nothing else — same DataFrame (hence no counter), same scan log. -/
theorem C5_no_detectado (ts raw : String) (ss : Sesion) (h1 : ¬norm_code raw = "")
    (h2 : indicesDe ss.df (norm_code raw) = []) :
    registrar_codigo ts raw ss =
      ({ ss with no_match := ss.no_match ++ [{ ts := ts, code := norm_code raw }] },
       Resultado.noDetectado) :=
  registrar_noDetectado ts raw ss h1 h2

/-- C5 witness: scanning the unknown code "ZZZ". -/
theorem C5_no_detectado_witness :
    registrar_codigo "t" "ZZZ" ssDup =
      ({ ssDup with no_match := ssDup.no_match ++ [{ ts := "t", code := norm_code "ZZZ" }] },
       Resultado.noDetectado) :=
  C5_no_detectado "t" "ZZZ" ssDup (by decide) (by decide)

/-- C6: a raw input whose normalization is empty is a complete no-op: the
session is returned unchanged and nothing is logged. -/
theorem C6_codigo_vacio (ts raw : String) (ss : Sesion) (h : norm_code raw = "") :
    registrar_codigo ts raw ss = (ss, Resultado.vacio) :=
  registrar_vacio ts raw ss h

/-- C6 witness: "---" normalizes to the empty string. -/
theorem C6_codigo_vacio_witness :
    registrar_codigo "t" "---" ssDup = (ssDup, Resultado.vacio) :=
  C6_codigo_vacio "t" "---" ssDup (by decide)

/-- C7: the normalizer is total (a function), sends the empty string to the
empty string, keeps exactly the ASCII-alphanumeric characters upper-cased,
every output character is alphanumeric and fixed by upper-casing, and the
normalizer is idempotent. -/
theorem C7_norm_code_normalizador :
    norm_code "" = "" ∧
    (∀ x, norm_code (norm_code x) = norm_code x) ∧
    (∀ x, (norm_code x).data = (x.data.filter Char.isAlphanum).map Char.toUpper) ∧
    (∀ x, ∀ c ∈ (norm_code x).data, c.isAlphanum = true ∧ Char.toUpper c = c) :=
  ⟨rfl, norm_code_idem, norm_code_data, mem_norm_code⟩

/-- C7 witness: idempotence evaluated on a concrete mixed string. -/
theorem C7_norm_code_normalizador_witness :
    norm_code (norm_code " ab-9z ÁÉ ") = norm_code " ab-9z ÁÉ " ∧
    norm_code " ab-9z ÁÉ " = "AB9Z" :=
  ⟨C7_norm_code_normalizador.2.1 " ab-9z ÁÉ ", by decide⟩

/-! ### Counting machinery for the duplicate audit (C8) -/

theorem getD_eq_getElem {α : Type} (l : List α) (i : Nat) (d : α) (h : i < l.length) :
    l.getD i d = l[i] := by
  rw [List.getD_eq_getElem?_getD, List.getElem?_eq_getElem h]
  rfl

theorem countP_pos_iff_index {α : Type} (p : α → Bool) (xs : List α) (d : α) :
    0 < xs.countP p ↔ ∃ j, j < xs.length ∧ p (xs.getD j d) = true := by
  rw [List.countP_pos_iff]
  constructor
  · rintro ⟨a, ha, hpa⟩
    obtain ⟨n, hn, hEq⟩ := List.mem_iff_getElem.mp ha
    refine ⟨n, hn, ?_⟩
    rw [getD_eq_getElem xs n d hn, hEq]
    exact hpa
  · rintro ⟨j, hj, hpj⟩
    exact ⟨xs.getD j d, getD_mem_of_lt xs j d hj, hpj⟩

theorem countP_two_le_iff {α : Type} (p : α → Bool) (xs : List α) (d : α) (i : Nat)
    (hi : i < xs.length) (hpi : p (xs.getD i d) = true) :
    2 ≤ xs.countP p ↔ ∃ j, j < xs.length ∧ ¬j = i ∧ p (xs.getD j d) = true := by
  induction xs generalizing i with
  | nil => simp at hi
  | cons x rest ih =>
    cases i with
    | zero =>
      have hx : p x = true := by simpa using hpi
      rw [List.countP_cons_of_pos p rest hx]
      constructor
      · intro h2
        have h1 : 0 < rest.countP p := by omega
        obtain ⟨k, hk, hpk⟩ := (countP_pos_iff_index p rest d).mp h1
        exact ⟨k + 1, by simpa using hk, by simp, by simpa using hpk⟩
      · rintro ⟨j, hj, hjne, hpj⟩
        cases j with
        | zero => exact absurd rfl hjne
        | succ k =>
          have hk : k < rest.length := by simpa using hj
          have hpk : p (rest.getD k d) = true := by simpa using hpj
          have hpos : 0 < rest.countP p := (countP_pos_iff_index p rest d).mpr ⟨k, hk, hpk⟩
          omega
    | succ n =>
      have hn : n < rest.length := by simpa using hi
      have hpn : p (rest.getD n d) = true := by simpa using hpi
      by_cases hx : p x = true
      · rw [List.countP_cons_of_pos p rest hx]
        have hpos : 0 < rest.countP p := (countP_pos_iff_index p rest d).mpr ⟨n, hn, hpn⟩
        constructor
        · intro _
          exact ⟨0, by simp, by simp, by simpa using hx⟩
        · intro _
          omega
      · rw [List.countP_cons_of_neg p rest hx]
        rw [ih n hn hpn]
        constructor
        · rintro ⟨k, hk, hkne, hpk⟩
          refine ⟨k + 1, by simpa using hk, ?_, by simpa using hpk⟩
          intro hkk
          apply hkne
          omega
        · rintro ⟨j, hj, hjne, hpj⟩
          cases j with
          | zero => exact absurd (by simpa using hpj) hx
          | succ k =>
            refine ⟨k, by simpa using hj, ?_, by simpa using hpj⟩
            intro hkn
            exact hjne (by rw [hkn])

theorem mem_incongruenciasDe_iff (lineas : List Linea) (l : Linea) :
    l ∈ incongruenciasDe lineas ↔
      l ∈ lineas ∧ ¬(l.peru + l.chile + l.colombia = l.total) := by
  unfold incongruenciasDe
  rw [List.mem_filter]
  simp

theorem mem_duplicadosDe_iff (lineas : List Linea) (i : Nat) (hi : i < lineas.length) :
    lineas.getD i lineaNula ∈ duplicadosDe lineas ↔
      ∃ j, j < lineas.length ∧ ¬j = i ∧
        (lineas.getD j lineaNula).isbn_norm = (lineas.getD i lineaNula).isbn_norm := by
  have hmem : lineas.getD i lineaNula ∈ lineas := getD_mem_of_lt lineas i lineaNula hi
  have hpi : (fun m : Linea => decide (m.isbn_norm = (lineas.getD i lineaNula).isbn_norm))
      (lineas.getD i lineaNula) = true := by simp
  unfold duplicadosDe
  rw [List.mem_filter]
  constructor
  · intro hm
    have hcnt : 2 ≤ lineas.countP
        (fun m => decide (m.isbn_norm = (lineas.getD i lineaNula).isbn_norm)) := by
      simpa using hm.2
    obtain ⟨j, hj, hjne, hpj⟩ := (countP_two_le_iff _ lineas lineaNula i hi hpi).mp hcnt
    exact ⟨j, hj, hjne, by simpa using hpj⟩
  · rintro ⟨j, hj, hjne, hpj⟩
    refine ⟨hmem, ?_⟩
    have h2 := (countP_two_le_iff
        (fun m : Linea => decide (m.isbn_norm = (lineas.getD i lineaNula).isbn_norm))
        lineas lineaNula i hi hpi).mpr ⟨j, hj, hjne, by simpa using hpj⟩
    simpa using h2

/-! ### Frame helpers -/

theorem registrar_marco_auditor (ts raw : String) (ss : Sesion) :
    (registrar_codigo ts raw ss).1.duplicados = ss.duplicados ∧
    (registrar_codigo ts raw ss).1.incongruencias = ss.incongruencias := by
  by_cases hc : norm_code raw = ""
  · rw [registrar_vacio ts raw ss hc]
    exact ⟨rfl, rfl⟩
  · by_cases hix : indicesDe ss.df (norm_code raw) = []
    · rw [registrar_noDetectado ts raw ss hc hix]
      exact ⟨rfl, rfl⟩
    · cases helegir : elegir_slot_para_codigo ss.prioridad ss.df
        (indicesDe ss.df (norm_code raw)) with
      | none =>
        rw [registrar_completo ts raw ss hc hix helegir]
        exact ⟨rfl, rfl⟩
      | some r =>
        obtain ⟨i, d⟩ := r
        rw [registrar_asignado ts raw ss i d hc helegir]
        exact ⟨rfl, rfl⟩

theorem deshacer_marco_basico (ss : Sesion) :
    (deshacer ss).no_match = ss.no_match ∧ (deshacer ss).prioridad = ss.prioridad ∧
    (deshacer ss).duplicados = ss.duplicados ∧
    (deshacer ss).incongruencias = ss.incongruencias := by
  cases hlast : ss.scan_log.getLast? with
  | none =>
    rw [deshacer_nil ss hlast]
    exact ⟨rfl, rfl, rfl, rfl⟩
  | some e =>
    by_cases hcond : e.matched = true ∧
        (e.destino = "Perú" ∨ e.destino = "Chile" ∨ e.destino = "Colombia")
    · rw [deshacer_pais ss e hlast hcond]
      exact ⟨rfl, rfl, rfl, rfl⟩
    · rw [deshacer_sin_pais ss e hlast hcond]
      exact ⟨rfl, rfl, rfl, rfl⟩

theorem set_of_length_le {α : Type} (l : List α) (i : Nat) (a : α) (h : l.length ≤ i) :
    l.set i a = l :=
  List.set_eq_of_length_le h

theorem destocar_base (d : String) (l : Linea) :
    (destocar d l).isbn = l.isbn ∧ (destocar d l).nombre = l.nombre ∧
    (destocar d l).total = l.total ∧ (destocar d l).peru = l.peru ∧
    (destocar d l).chile = l.chile ∧ (destocar d l).colombia = l.colombia ∧
    (destocar d l).isbn_norm = l.isbn_norm := by
  simp only [destocar]
  split_ifs <;> exact ⟨rfl, rfl, rfl, rfl, rfl, rfl, rfl⟩

theorem deshacer_conmuta_prioridad (ss : Sesion) (p : List String) :
    deshacer { ss with prioridad := p } = { deshacer ss with prioridad := p } := by
  cases hlast : ss.scan_log.getLast? with
  | none =>
    rw [deshacer_nil ss hlast, deshacer_nil { ss with prioridad := p } hlast]
  | some e =>
    by_cases hcond : e.matched = true ∧
        (e.destino = "Perú" ∨ e.destino = "Chile" ∨ e.destino = "Colombia")
    · rw [deshacer_pais ss e hlast hcond,
        deshacer_pais { ss with prioridad := p } e hlast hcond]
    · rw [deshacer_sin_pais ss e hlast hcond,
        deshacer_sin_pais { ss with prioridad := p } e hlast hcond]

/-- C8: the incongruence audit flags exactly the rows whose quotas do not sum
to the total; the duplicate audit flags a row exactly when another position
carries the same normalized identifier (so every member of a duplicate group,
not just the extras); both lists depend only on the loaded rows, replacing
any previous results on (re)load; and scanning, undo and reset never change
them. -/
theorem C8_auditor_instantaneas :
    (∀ ss filas l, l ∈ (recargar ss filas).incongruencias ↔
      l ∈ filas.map mkLinea ∧ ¬(l.peru + l.chile + l.colombia = l.total)) ∧
    (∀ ss filas i, i < filas.length →
      (((filas.map mkLinea).getD i lineaNula ∈ (recargar ss filas).duplicados) ↔
        ∃ j, j < filas.length ∧ ¬j = i ∧
          norm_code (filas.getD j filaNula).isbn = norm_code (filas.getD i filaNula).isbn)) ∧
    (∀ ss ss2 filas, (recargar ss filas).duplicados = (recargar ss2 filas).duplicados ∧
      (recargar ss filas).incongruencias = (recargar ss2 filas).incongruencias) ∧
    (∀ ts raw ss, (registrar_codigo ts raw ss).1.duplicados = ss.duplicados ∧
      (registrar_codigo ts raw ss).1.incongruencias = ss.incongruencias) ∧
    (∀ ss : Sesion, (deshacer ss).duplicados = ss.duplicados ∧
      (deshacer ss).incongruencias = ss.incongruencias) ∧
    (∀ ss : Sesion, (reiniciar ss).duplicados = ss.duplicados ∧
      (reiniciar ss).incongruencias = ss.incongruencias) := by
  refine ⟨?_, ?_, fun ss ss2 filas => ⟨rfl, rfl⟩, registrar_marco_auditor,
    fun ss => ⟨(deshacer_marco_basico ss).2.2.1, (deshacer_marco_basico ss).2.2.2⟩,
    fun ss => ⟨rfl, rfl⟩⟩
  · intro ss filas l
    show l ∈ incongruenciasDe (filas.map mkLinea) ↔ _
    exact mem_incongruenciasDe_iff (filas.map mkLinea) l
  · intro ss filas i hi
    have hlen : i < (filas.map mkLinea).length := by simpa using hi
    show (filas.map mkLinea).getD i lineaNula ∈ duplicadosDe (filas.map mkLinea) ↔ _
    rw [mem_duplicadosDe_iff (filas.map mkLinea) i hlen]
    constructor
    · rintro ⟨j, hj, hjne, hpj⟩
      have hj2 : j < filas.length := by simpa using hj
      refine ⟨j, hj2, hjne, ?_⟩
      rw [getD_map_of_lt mkLinea filas j filaNula lineaNula hj2,
        getD_map_of_lt mkLinea filas i filaNula lineaNula hi] at hpj
      exact hpj
    · rintro ⟨j, hj, hjne, hpj⟩
      have hj2 : j < (filas.map mkLinea).length := by simpa using hj
      refine ⟨j, hj2, hjne, ?_⟩
      rw [getD_map_of_lt mkLinea filas j filaNula lineaNula hj,
        getD_map_of_lt mkLinea filas i filaNula lineaNula hi]
      exact hpj

/-- C8 witness: in the two-identical-row manifest, row 0 is flagged as a
duplicate (its mate is row 1), and one scan leaves both audit snapshots
untouched. -/
theorem C8_auditor_instantaneas_witness :
    (([filaDemo, filaDemo].map mkLinea).getD 0 lineaNula ∈
      (recargar (sesionInicial prioDemo) [filaDemo, filaDemo]).duplicados) ∧
    (registrar_codigo "t1" "A" ssDup).1.duplicados = ssDup.duplicados ∧
    (registrar_codigo "t1" "A" ssDup).1.incongruencias = ssDup.incongruencias :=
  ⟨(C8_auditor_instantaneas.2.1 (sesionInicial prioDemo) [filaDemo, filaDemo] 0
      (by decide)).mpr ⟨1, by decide, by decide, by decide⟩,
   (C8_auditor_instantaneas.2.2.2.1 "t1" "A" ssDup).1,
   (C8_auditor_instantaneas.2.2.2.1 "t1" "A" ssDup).2⟩

/-- C9: the reset operation empties both logs, keeps the row count, zeroes
every scanned counter, restores every remaining counter to the quota and
leaves every loaded ManifestLine field (identifier, name, total, quotas,
normalized identifier) untouched. -/
theorem C9_reiniciar_todo (ss : Sesion) :
    (reiniciar ss).scan_log = [] ∧
    (reiniciar ss).no_match = [] ∧
    (reiniciar ss).df.length = ss.df.length ∧
    ∀ i, i < ss.df.length →
      ((reiniciar ss).df.getD i lineaNula).isbn = (ss.df.getD i lineaNula).isbn ∧
      ((reiniciar ss).df.getD i lineaNula).nombre = (ss.df.getD i lineaNula).nombre ∧
      ((reiniciar ss).df.getD i lineaNula).total = (ss.df.getD i lineaNula).total ∧
      ((reiniciar ss).df.getD i lineaNula).peru = (ss.df.getD i lineaNula).peru ∧
      ((reiniciar ss).df.getD i lineaNula).chile = (ss.df.getD i lineaNula).chile ∧
      ((reiniciar ss).df.getD i lineaNula).colombia = (ss.df.getD i lineaNula).colombia ∧
      ((reiniciar ss).df.getD i lineaNula).isbn_norm = (ss.df.getD i lineaNula).isbn_norm ∧
      ((reiniciar ss).df.getD i lineaNula).sc_pe = 0 ∧
      ((reiniciar ss).df.getD i lineaNula).sc_cl = 0 ∧
      ((reiniciar ss).df.getD i lineaNula).sc_co = 0 ∧
      ((reiniciar ss).df.getD i lineaNula).sc_total = 0 ∧
      ((reiniciar ss).df.getD i lineaNula).rem_pe = (ss.df.getD i lineaNula).peru ∧
      ((reiniciar ss).df.getD i lineaNula).rem_cl = (ss.df.getD i lineaNula).chile ∧
      ((reiniciar ss).df.getD i lineaNula).rem_co = (ss.df.getD i lineaNula).colombia := by
  refine ⟨rfl, rfl, by simp [reiniciar], ?_⟩
  intro i hi
  have hget : (reiniciar ss).df.getD i lineaNula
      = reiniciarLinea (ss.df.getD i lineaNula) := by
    show (ss.df.map reiniciarLinea).getD i lineaNula = _
    exact getD_map_of_lt reiniciarLinea ss.df i lineaNula lineaNula hi
  rw [hget]
  exact ⟨rfl, rfl, rfl, rfl, rfl, rfl, rfl, rfl, rfl, rfl, rfl, rfl, rfl, rfl⟩

/-- C9 witness: resetting the session that has one committed scan. -/
theorem C9_reiniciar_todo_witness :
    (reiniciar ssDup1).scan_log = [] ∧
    (reiniciar ssDup1).no_match = [] ∧
    (reiniciar ssDup1).df.length = ssDup1.df.length ∧
    ((reiniciar ssDup1).df.getD 0 lineaNula).sc_pe = 0 ∧
    ((reiniciar ssDup1).df.getD 0 lineaNula).rem_pe = (ssDup1.df.getD 0 lineaNula).peru := by
  obtain ⟨h1, h2, h3, h4⟩ := C9_reiniciar_todo ssDup1
  obtain ⟨g1, g2, g3, g4, g5, g6, g7, g8, g9, g10, g11, g12, g13, g14⟩ := h4 0 (by decide)
  exact ⟨h1, h2, h3, g8, g12⟩

/-- C10: undo's frame — an undo with an empty log changes nothing; otherwise
it leaves the not-found log, the priority, both audit snapshots, the row
count, every row other than the one referenced by the popped entry, and all
ManifestLine fields of that row unchanged, and touches only the counters of
the destination recorded in the popped entry plus that row's scanned total;
moreover undo never reads the current DestinationPriority, so it commutes
with a priority change, and an allocation followed by a priority change and
an undo still restores the counters exactly. -/
theorem C10_deshacer_marco :
    (∀ ss : Sesion, ss.scan_log = [] → deshacer ss = ss) ∧
    (∀ ss : Sesion, ∀ e : Entrada, ss.scan_log.getLast? = some e →
      (deshacer ss).no_match = ss.no_match ∧
      (deshacer ss).prioridad = ss.prioridad ∧
      (deshacer ss).duplicados = ss.duplicados ∧
      (deshacer ss).incongruencias = ss.incongruencias ∧
      (deshacer ss).df.length = ss.df.length ∧
      (∀ j, ¬j = e.idx → (deshacer ss).df.getD j lineaNula = ss.df.getD j lineaNula) ∧
      (((deshacer ss).df.getD e.idx lineaNula).isbn = (ss.df.getD e.idx lineaNula).isbn ∧
        ((deshacer ss).df.getD e.idx lineaNula).nombre
          = (ss.df.getD e.idx lineaNula).nombre ∧
        ((deshacer ss).df.getD e.idx lineaNula).total = (ss.df.getD e.idx lineaNula).total ∧
        ((deshacer ss).df.getD e.idx lineaNula).peru = (ss.df.getD e.idx lineaNula).peru ∧
        ((deshacer ss).df.getD e.idx lineaNula).chile = (ss.df.getD e.idx lineaNula).chile ∧
        ((deshacer ss).df.getD e.idx lineaNula).colombia
          = (ss.df.getD e.idx lineaNula).colombia ∧
        ((deshacer ss).df.getD e.idx lineaNula).isbn_norm
          = (ss.df.getD e.idx lineaNula).isbn_norm) ∧
      (e.destino = "Perú" →
        ((deshacer ss).df.getD e.idx lineaNula).sc_cl = (ss.df.getD e.idx lineaNula).sc_cl ∧
        ((deshacer ss).df.getD e.idx lineaNula).sc_co = (ss.df.getD e.idx lineaNula).sc_co ∧
        ((deshacer ss).df.getD e.idx lineaNula).rem_cl
          = (ss.df.getD e.idx lineaNula).rem_cl ∧
        ((deshacer ss).df.getD e.idx lineaNula).rem_co
          = (ss.df.getD e.idx lineaNula).rem_co) ∧
      (e.destino = "Chile" →
        ((deshacer ss).df.getD e.idx lineaNula).sc_pe = (ss.df.getD e.idx lineaNula).sc_pe ∧
        ((deshacer ss).df.getD e.idx lineaNula).sc_co = (ss.df.getD e.idx lineaNula).sc_co ∧
        ((deshacer ss).df.getD e.idx lineaNula).rem_pe
          = (ss.df.getD e.idx lineaNula).rem_pe ∧
        ((deshacer ss).df.getD e.idx lineaNula).rem_co
          = (ss.df.getD e.idx lineaNula).rem_co) ∧
      (e.destino = "Colombia" →
        ((deshacer ss).df.getD e.idx lineaNula).sc_pe = (ss.df.getD e.idx lineaNula).sc_pe ∧
        ((deshacer ss).df.getD e.idx lineaNula).sc_cl = (ss.df.getD e.idx lineaNula).sc_cl ∧
        ((deshacer ss).df.getD e.idx lineaNula).rem_pe
          = (ss.df.getD e.idx lineaNula).rem_pe ∧
        ((deshacer ss).df.getD e.idx lineaNula).rem_cl
          = (ss.df.getD e.idx lineaNula).rem_cl)) ∧
    (∀ ss : Sesion, ∀ p : List String,
      deshacer { ss with prioridad := p } = { deshacer ss with prioridad := p }) ∧
    (∀ ts raw : String, ∀ ss : Sesion, ∀ i : Nat, ∀ d : String, ∀ p : List String,
      ¬norm_code raw = "" → ¬p = [] →
      elegir_slot_para_codigo ss.prioridad ss.df (indicesDe ss.df (norm_code raw)) =
        some (i, d) →
      deshacer (cambiar_prioridad p (registrar_codigo ts raw ss).1) =
        cambiar_prioridad p ss) := by
  refine ⟨?_, ?_, deshacer_conmuta_prioridad, ?_⟩
  · intro ss h
    exact deshacer_nil ss (by rw [h]; rfl)
  · intro ss e hlast
    by_cases hcond : e.matched = true ∧
        (e.destino = "Perú" ∨ e.destino = "Chile" ∨ e.destino = "Colombia")
    · rw [deshacer_pais ss e hlast hcond]
      refine ⟨rfl, rfl, rfl, rfl, by simp [List.length_set], ?_, ?_, ?_, ?_, ?_⟩
      · intro j hj
        exact getD_set_ne ss.df e.idx j _ lineaNula (fun hh => hj hh.symm)
      · by_cases hrange : e.idx < ss.df.length
        · rw [getD_set_self ss.df e.idx _ lineaNula hrange]
          exact destocar_base e.destino (ss.df.getD e.idx lineaNula)
        · rw [set_of_length_le ss.df e.idx _ (by omega)]
          exact ⟨rfl, rfl, rfl, rfl, rfl, rfl, rfl⟩
      · intro hd
        by_cases hrange : e.idx < ss.df.length
        · rw [getD_set_self ss.df e.idx _ lineaNula hrange, hd, destocar_pe_eq]
          exact ⟨rfl, rfl, rfl, rfl⟩
        · rw [set_of_length_le ss.df e.idx _ (by omega)]
          exact ⟨rfl, rfl, rfl, rfl⟩
      · intro hd
        by_cases hrange : e.idx < ss.df.length
        · rw [getD_set_self ss.df e.idx _ lineaNula hrange, hd, destocar_cl_eq]
          exact ⟨rfl, rfl, rfl, rfl⟩
        · rw [set_of_length_le ss.df e.idx _ (by omega)]
          exact ⟨rfl, rfl, rfl, rfl⟩
      · intro hd
        by_cases hrange : e.idx < ss.df.length
        · rw [getD_set_self ss.df e.idx _ lineaNula hrange, hd, destocar_co_eq]
          exact ⟨rfl, rfl, rfl, rfl⟩
        · rw [set_of_length_le ss.df e.idx _ (by omega)]
          exact ⟨rfl, rfl, rfl, rfl⟩
    · rw [deshacer_sin_pais ss e hlast hcond]
      exact ⟨rfl, rfl, rfl, rfl, rfl, fun j hj => rfl,
        ⟨rfl, rfl, rfl, rfl, rfl, rfl, rfl⟩, fun hd => ⟨rfl, rfl, rfl, rfl⟩,
        fun hd => ⟨rfl, rfl, rfl, rfl⟩, fun hd => ⟨rfl, rfl, rfl, rfl⟩⟩
  · intro ts raw ss i d p h1 hp h2
    have hccp : ∀ x : Sesion, cambiar_prioridad p x = { x with prioridad := p } := by
      intro x
      unfold cambiar_prioridad
      rw [if_neg hp]
    rw [hccp, hccp, deshacer_conmuta_prioridad,
      deshacer_registrar ts raw ss i d h1 h2]

/-- C10 witness: an allocation on the duplicate-rows session, a priority
change to ["Chile"], then an undo restores everything; and an undo on the
empty log is a no-op. -/
theorem C10_deshacer_marco_witness :
    deshacer ssDup = ssDup ∧
    deshacer (cambiar_prioridad ["Chile"] (registrar_codigo "t1" "A" ssDup).1) =
      cambiar_prioridad ["Chile"] ssDup :=
  ⟨C10_deshacer_marco.1 ssDup rfl,
   C10_deshacer_marco.2.2.2 "t1" "A" ssDup 0 "Perú" ["Chile"] (by decide) (by decide)
     (by decide)⟩

end ScanCode
